import Mathlib

/-!
# Verification of the collaborative-story room coordinator

Shallow embedding of the `StoryAgent` Durable Object (src/src/server.ts,
second document: the class with the in-memory `isLocked` field), together
with the failure path of the richer DnD variant (src/src/story-agent.ts)
and supporting algorithms. Each event handler is modelled as a pure
function on the agent state; the asynchronous narration-generator call is
modelled by an `AIOutcome` parameter and wall-clock reads by a `now : Nat`
parameter. JavaScript objects used as string-keyed maps (`currentVotes`)
are modelled as insertion-ordered association lists, matching the
iteration order of `Object.entries` / `Object.keys`.
-/

/-- Chat roles of the messages kept in `StoryState.messages`. -/
inductive Role where
  | system
  | user
  | assistant
deriving DecidableEq, Repr

/-- One entry of the narration history. -/
structure ChatMsg where
  role : Role
  content : String
deriving DecidableEq, Repr

/-- Room phases of the server.ts variant. -/
inductive Phase where
  | LOBBY
  | VOTING
  | NARRATING
deriving DecidableEq, Repr

/-- The `StoryState` interface of server.ts: the persisted room state.
`currentVotes` is a JS object keyed by option id, modelled as an
insertion-ordered association list; `votingDeadline` is the optional
timestamp field. -/
structure StoryState where
  messages : List ChatMsg
  phase : Phase
  currentVotes : List (String × Nat)
  connectedUsers : Nat
  votingDeadline : Option Nat
  votedUsers : List String
  roundNumber : Nat
deriving DecidableEq, Repr

/-- The whole agent: the persisted `StoryState` plus the in-memory
round-advance lock `isLocked` (an instance field, not part of `setState`). -/
structure AgentState where
  state : StoryState
  isLocked : Bool
deriving DecidableEq, Repr

/-- `VOTING_DURATION_MS` of server.ts. -/
def VOTING_DURATION_MS : Nat := 20000

/-- The system prompt of `getDefaultState` (content irrelevant to every
claim; kept verbatim for fidelity of the initial state). -/
def systemPrompt : String :=
  "You are the Dungeon Master for a collaborative interactive fiction game. \nYour goal is to narrate the CURRENT segment of a story based on player choices.\n\nCRITICAL CONSTRAINTS:\n1. ONLY write ONE paragraph (max 60 words).\n2. ONLY provide EXACTLY 3 numbered options at the end.\n3. NEVER continue the story beyond the current turn.\n4. NEVER summarize or repeat past turns.\n5. NEVER mention game mechanics, dice, or voting.\n6. Format options exactly as:\n   1. [Option 1]\n   2. [Option 2]\n   3. [Option 3]\n\nStay in character as a mysterious and immersive narrator."

/-- `getDefaultState()` of server.ts. -/
def getDefaultState : StoryState :=
  { messages := [⟨Role.system, systemPrompt⟩]
    phase := Phase.LOBBY
    currentVotes := [("1", 0), ("2", 0), ("3", 0)]
    connectedUsers := 0
    votingDeadline := none
    votedUsers := []
    roundNumber := 0 }

/-- A freshly created agent: default state, lock not held. The
`this.state` null check of the source is absorbed by the `currentState`
getter, which returns the default state until the first `setState`. -/
def initialAgent : AgentState :=
  { state := getDefaultState, isLocked := false }

/-- `updatedVotes[data.choice] = (updatedVotes[data.choice] || 0) + 1` on a
JS object: bump the value at an existing key in place (keeping key order),
or append the key with value 1. -/
def bumpVote : List (String × Nat) → String → List (String × Nat)
  | [], c => [(c, 1)]
  | (k, v) :: rest, c =>
      if k = c then (k, v + 1) :: rest else (k, v) :: bumpVote rest c

/-- Outcome of one `await this.env.AI.run(...)` round trip, including the
behaviour of the surrounding `try`/`catch`/`finally`:
`ok story` — the generator returned `story`;
`fail` — the generator threw and the fallback path completed;
`failThenThrow` — the generator threw and then the fallback path's
`setAlarm` call also threw (the exception propagates out of `catch`, after
the fallback `setState` already ran, and `finally` still runs). -/
inductive AIOutcome where
  | ok (story : String)
  | fail
  | failThenThrow
deriving DecidableEq, Repr

/-- Characters accepted by the `\s` class of the option-extraction regex
(the ones that can occur in generated text). -/
def isSpaceChar (ch : Char) : Bool :=
  ch = ' ' ∨ ch = '\n' ∨ ch = '\t' ∨ ch = '\r'

/-- Try to strip `pat` from the front of `cs`, returning the remainder. -/
def stripPat : List Char → List Char → Option (List Char)
  | [], cs => some cs
  | _, [] => none
  | p :: ps, c :: cs => if c = p then stripPat ps cs else none

/-- Match the regex `<choice>\.\s*\[([^\]]+)\]` at the head of `cs`,
returning the capture group. The option id is matched literally (ids are
the digit strings produced by the tally). -/
def matchOptionAt (cs : List Char) (choice : List Char) : Option String :=
  match stripPat choice cs with
  | none => none
  | some rest =>
    match rest with
    | '.' :: rest1 =>
        match rest1.dropWhile isSpaceChar with
        | '[' :: rest2 =>
            let label := rest2.takeWhile (fun ch => ch ≠ ']')
            if label.isEmpty then none
            else if (rest2.dropWhile (fun ch => ch ≠ ']')).isEmpty then none
            else some (String.mk label)
        | _ => none
    | _ => none

/-- `content.match(new RegExp(...))`: first match anywhere in the string. -/
def searchOption : List Char → List Char → Option String
  | [], _ => none
  | c :: rest, choice =>
      match matchOptionAt (c :: rest) choice with
      | some l => some l
      | none => searchOption rest choice

/-- One iteration of the winner-selection loop of server.ts `resolveVotes`
(lines 179-184): keep the entry whose count strictly exceeds the running
maximum. -/
def winnerStep (acc : String × Int) (p : String × Nat) : String × Int :=
  if (p.2 : Int) > acc.2 then (p.1, (p.2 : Int)) else acc

/-- The winner-selection loop of server.ts `resolveVotes` (lines 177-184):
fold over `Object.entries(s.currentVotes)`, starting from
`winningChoice = "1"`, `maxVotes = -1`. -/
def resolveWinnerPair (votes : List (String × Nat)) : String × Int :=
  votes.foldl winnerStep ("1", -1)

/-- `Math.max(...Object.values(votes))` of the story-agent.ts variant; for
the nonempty `Nat`-valued tallies that occur, seeding the fold with 0
agrees with the JS maximum. -/
def maxTally (votes : List (String × Nat)) : Nat :=
  (votes.map Prod.snd).foldr max 0

/-- story-agent.ts `resolveVotes` (lines 147-148): all options whose tally
equals the maximum, in key order. -/
def tiedCandidates (votes : List (String × Nat)) : List String :=
  (votes.filter (fun p => p.2 = maxTally votes)).map Prod.fst

/-- The reset value `{ "1": 0, "2": 0, "3": 0 }`. -/
def resetVotes : List (String × Nat) := [("1", 0), ("2", 0), ("3", 0)]

/-- The canned fallback narrator turn of the server.ts `catch` branch
(line 252). -/
def fallbackTurn : ChatMsg :=
  ⟨Role.assistant,
   "The mist thickens, obscuring the path. Try again.\n\n1. [Wait]\n2. [Listen]\n3. [Move forward]"⟩

/-- `startRound(prompt)` of server.ts (lines 197-264), atomically: the
NARRATING `setState`, the generator call (outcome `out`, `Date.now() = now`)
and the success / fallback paths, with the `finally` releasing the lock.
Returns the resulting agent state and whether an exception propagated to
the caller. -/
def startRound (a : AgentState) (prompt : Option String) (out : AIOutcome)
    (now : Nat) : AgentState × Bool :=
  let s := a.state
  let nextRound := s.roundNumber + 1
  let s1 : StoryState :=
    { s with
      phase := Phase.NARRATING
      roundNumber := nextRound
      currentVotes := resetVotes
      votedUsers := [] }
  let history := s.messages ++
    [⟨Role.user, match prompt with
                 | some p => "ACTION: " ++ p
                 | none => "Begin the adventure."⟩]
  match out with
  | AIOutcome.ok story =>
      let finalMessages := history ++ [⟨Role.assistant, story⟩]
      let deadline := now + VOTING_DURATION_MS
      let s2 : StoryState :=
        { s1 with
          messages := finalMessages
          phase := Phase.VOTING
          votingDeadline := some deadline
          roundNumber := nextRound }
      ({ state := s2, isLocked := false }, false)
  | AIOutcome.fail =>
      let s2 : StoryState :=
        { s1 with
          messages := s1.messages ++ [fallbackTurn]
          phase := Phase.VOTING
          votingDeadline := some (now + 5000) }
      ({ state := s2, isLocked := false }, false)
  | AIOutcome.failThenThrow =>
      let s2 : StoryState :=
        { s1 with
          messages := s1.messages ++ [fallbackTurn]
          phase := Phase.VOTING
          votingDeadline := some (now + 5000) }
      ({ state := s2, isLocked := false }, true)

/-- `resolveVotes()` of server.ts (lines 170-195): early return when the
lock is held, otherwise take the lock, select the winner, extract its
label from the last assistant message, and call `startRound`. -/
def resolveVotes (a : AgentState) (out : AIOutcome) (now : Nat) :
    AgentState × Bool :=
  if a.isLocked then (a, false)
  else
    let a1 : AgentState := { a with isLocked := true }
    let s := a1.state
    let winner := (resolveWinnerPair s.currentVotes).1
    let lastAssistant :=
      (s.messages.filter (fun m => m.role = Role.assistant)).getLast?
    let actionText :=
      match lastAssistant with
      | some m =>
          match searchOption m.content.data winner.data with
          | some l => l
          | none => "Option " ++ winner
      | none => "Option " ++ winner
    startRound a1 (some actionText) out now

/-- `onConnect` of server.ts: increment `connectedUsers`. -/
def onConnect (a : AgentState) : AgentState :=
  { a with state := { a.state with connectedUsers := a.state.connectedUsers + 1 } }

/-- `onClose` of server.ts: decrement `connectedUsers`, floored at 0. -/
def onClose (a : AgentState) : AgentState :=
  if a.state.connectedUsers > 0 then
    { a with state := { a.state with connectedUsers := a.state.connectedUsers - 1 } }
  else a

/-- A parsed client message; `other` covers unparsable payloads and
unrecognized `type` values, which the handler drops. -/
inductive ClientMsg where
  | startGame
  | vote (choice : String)
  | other
deriving DecidableEq, Repr

/-- The vote-recording `setState` of the `VOTE` branch (lines 144-149):
`updatedVotes[data.choice] = (updatedVotes[data.choice] || 0) + 1` and
`updatedVoters = [...s.votedUsers, connectionId]`. -/
def recordVote (a : AgentState) (id choice : String) : AgentState :=
  { a with state :=
      { a.state with
        currentVotes := bumpVote a.state.currentVotes choice
        votedUsers := a.state.votedUsers ++ [id] } }

/-- `onMessage` of server.ts (lines 125-159): the `START_GAME` and `VOTE`
branches, including the early-resolution check
`updatedVoters.length >= s.connectedUsers && !this.isLocked` after a
recorded vote; `deleteAlarm` is an external side effect. -/
def onMessage (a : AgentState) (id : String) (msg : ClientMsg)
    (out : AIOutcome) (now : Nat) : AgentState :=
  match msg with
  | ClientMsg.startGame =>
      if a.state.phase = Phase.LOBBY ∧ a.isLocked = false then
        (startRound a none out now).1
      else a
  | ClientMsg.vote choice =>
      if a.state.phase = Phase.VOTING ∧ id ∉ a.state.votedUsers then
        if (recordVote a id choice).state.votedUsers.length ≥ a.state.connectedUsers
            ∧ (recordVote a id choice).isLocked = false then
          (resolveVotes (recordVote a id choice) out now).1
        else recordVote a id choice
      else a
  | ClientMsg.other => a

/-- `alarm()` of server.ts (lines 161-168). -/
def alarmStep (a : AgentState) (out : AIOutcome) (now : Nat) : AgentState :=
  if a.state.phase = Phase.VOTING ∧ a.isLocked = false then
    (resolveVotes a out now).1
  else a

/-- The external events one room instance can receive. -/
inductive Event where
  | connect
  | close
  | message (id : String) (msg : ClientMsg) (out : AIOutcome) (now : Nat)
  | alarmFired (out : AIOutcome) (now : Nat)

/-- Dispatch one event to its handler. -/
def step (a : AgentState) : Event → AgentState
  | Event.connect => onConnect a
  | Event.close => onClose a
  | Event.message id m out now => onMessage a id m out now
  | Event.alarmFired out now => alarmStep a out now

/-- Run an event sequence from the freshly created room. -/
def run (evs : List Event) : AgentState :=
  evs.foldl step initialAgent

/-! ## The richer DnD variant (src/src/story-agent.ts) — failure path

Only the control flow taken when the narration generator throws is needed:
the claims about this variant concern its `catch` branch. -/

/-- Phases of the story-agent.ts variant. -/
inductive DndPhase where
  | LOBBY
  | VOTING
  | NARRATING
  | GAMEOVER
  | VICTORY
deriving DecidableEq, Repr

/-- `PartyStats` of story-agent.ts. -/
structure PartyStats where
  hp : Nat
  maxHp : Nat
  gold : Nat
  level : Nat
  quest : String
deriving DecidableEq, Repr

/-- The `StoryState` interface of story-agent.ts. -/
structure DndState where
  messages : List ChatMsg
  phase : DndPhase
  currentVotes : List (String × Nat)
  connectedUsers : Nat
  votingDeadline : Option Nat
  votedUsers : List String
  roundNumber : Nat
  partyStats : PartyStats
  inventory : List String
deriving DecidableEq, Repr

/-- The story-agent.ts agent: persisted state plus the in-memory lock. -/
structure DndAgent where
  state : DndState
  isLocked : Bool
deriving DecidableEq, Repr

/-- `startRound(prompt)` of story-agent.ts (lines 214-270) on the path
where `this.env.AI.run` throws: the pre-`try` `setState` (NARRATING,
`roundNumber + 1`, the user turn appended, tallies and voters reset) runs,
the `catch` branch only logs `AI_ERROR`, and the `finally` releases the
lock. No fallback turn is appended, no deadline is set, no alarm is armed,
and the phase is left at NARRATING. -/
def dndStartRoundOnAIFailure (a : DndAgent) (prompt : Option String) : DndAgent :=
  let s := a.state
  { state :=
      { s with
        phase := DndPhase.NARRATING
        roundNumber := s.roundNumber + 1
        messages := s.messages ++
          [⟨Role.user, match prompt with
                       | some p => "Selection: " ++ p
                       | none => "Adventure started."⟩]
        currentVotes := resetVotes
        votedUsers := [] }
    isLocked := false }

/-! ## Invariants and concrete states -/

/-- The tally/voter bookkeeping invariant: the tally counts sum to the
number of recorded voters, and no voter is recorded twice. -/
@[reducible] def tallyVoterInv (s : StoryState) : Prop :=
  (s.currentVotes.map Prod.snd).sum = s.votedUsers.length ∧ s.votedUsers.Nodup

/-- The fixed-key-set invariant on the vote tally. -/
@[reducible] def keysInv (s : StoryState) : Prop :=
  s.currentVotes.map Prod.fst = ["1", "2", "3"]

/-- Whether an event carries only choices of the documented client
interface (`choice` one of `"1"`, `"2"`, `"3"`). -/
def eventValid : Event → Bool
  | Event.message _ (ClientMsg.vote c) _ _ => c == "1" || c == "2" || c == "3"
  | _ => true

/-- A reachable room: two clients connect and one starts the game, so the
room is in VOTING with `connectedUsers = 2` and an empty ballot. -/
def twoUserVotingRoom : AgentState :=
  run [Event.connect, Event.connect,
       Event.message "x" ClientMsg.startGame (AIOutcome.ok "s") 0]

/-- A reachable room in VOTING with `connectedUsers = 0`: one client
connects, starts the game, and disconnects during the voting window. -/
def zeroUserVotingRoom : AgentState :=
  run [Event.connect,
       Event.message "x" ClientMsg.startGame (AIOutcome.ok "s") 0,
       Event.close]

/-- A story-agent.ts room mid-game in VOTING, used as the concrete input
on which the failing generator call is exercised. -/
def dndFailInput : DndAgent :=
  { state :=
      { messages := [⟨Role.system, "sys"⟩,
                     ⟨Role.assistant,
                      "The wraith looms.\n1. [Fight]\n2. [Hide]\n3. [Flee]"⟩]
        phase := DndPhase.VOTING
        currentVotes := [("1", 1), ("2", 0), ("3", 0)]
        connectedUsers := 1
        votingDeadline := some 25000
        votedUsers := ["a"]
        roundNumber := 1
        partyStats := { hp := 100, maxHp := 100, gold := 0, level := 1,
                        quest := "Slay the wraith" }
        inventory := [] }
    isLocked := true }

/-- A fixed tally with a tie at the maximum, used as witness input. -/
def votesW : List (String × Nat) := [("1", 2), ("2", 2), ("3", 1)]

/-! ## Helper lemmas -/

theorem bumpVote_sum (votes : List (String × Nat)) (c : String) :
    ((bumpVote votes c).map Prod.snd).sum = (votes.map Prod.snd).sum + 1 := by
  induction votes with
  | nil => rfl
  | cons v vs ih =>
      obtain ⟨k, n⟩ := v
      by_cases hk : k = c
      · simp [bumpVote, hk]
        omega
      · simp [bumpVote, hk, ih]
        omega

theorem bumpVote_keys (votes : List (String × Nat)) (c : String)
    (h : c ∈ votes.map Prod.fst) :
    (bumpVote votes c).map Prod.fst = votes.map Prod.fst := by
  induction votes with
  | nil => simp at h
  | cons v vs ih =>
      obtain ⟨k, n⟩ := v
      by_cases hk : k = c
      · simp [bumpVote, hk]
      · have h' : c ∈ vs.map Prod.fst := by
          simp only [List.map_cons, List.mem_cons] at h
          rcases h with h | h
          · exact absurd h.symm hk
          · exact h
        simp [bumpVote, hk, ih h']

theorem startRound_roundNumber (a : AgentState) (p : Option String)
    (out : AIOutcome) (now : Nat) :
    ((startRound a p out now).1).state.roundNumber = a.state.roundNumber + 1 := by
  cases out <;> rfl

theorem startRound_currentVotes (a : AgentState) (p : Option String)
    (out : AIOutcome) (now : Nat) :
    ((startRound a p out now).1).state.currentVotes = resetVotes := by
  cases out <;> rfl

theorem startRound_votedUsers (a : AgentState) (p : Option String)
    (out : AIOutcome) (now : Nat) :
    ((startRound a p out now).1).state.votedUsers = [] := by
  cases out <;> rfl

theorem resolveVotes_of_locked (a : AgentState) (out : AIOutcome) (now : Nat)
    (h : a.isLocked = true) : (resolveVotes a out now).1 = a := by
  simp [resolveVotes, h]

theorem resolveVotes_roundNumber (a : AgentState) (out : AIOutcome) (now : Nat)
    (h : a.isLocked = false) :
    ((resolveVotes a out now).1).state.roundNumber = a.state.roundNumber + 1 := by
  simp only [resolveVotes, h, Bool.false_eq_true, if_false]
  rw [startRound_roundNumber]

theorem resolveVotes_currentVotes (a : AgentState) (out : AIOutcome) (now : Nat)
    (h : a.isLocked = false) :
    ((resolveVotes a out now).1).state.currentVotes = resetVotes := by
  simp only [resolveVotes, h, Bool.false_eq_true, if_false]
  rw [startRound_currentVotes]

theorem resolveVotes_votedUsers (a : AgentState) (out : AIOutcome) (now : Nat)
    (h : a.isLocked = false) :
    ((resolveVotes a out now).1).state.votedUsers = [] := by
  simp only [resolveVotes, h, Bool.false_eq_true, if_false]
  rw [startRound_votedUsers]

theorem startRound_tallyInv (a : AgentState) (p : Option String)
    (out : AIOutcome) (now : Nat) :
    tallyVoterInv ((startRound a p out now).1).state := by
  unfold tallyVoterInv
  rw [startRound_currentVotes, startRound_votedUsers]
  exact ⟨by decide, by decide⟩

theorem resolveVotes_tallyInv (a : AgentState) (out : AIOutcome) (now : Nat)
    (h : tallyVoterInv a.state) :
    tallyVoterInv ((resolveVotes a out now).1).state := by
  cases hl : a.isLocked with
  | true => rw [resolveVotes_of_locked a out now hl]; exact h
  | false =>
      unfold tallyVoterInv
      rw [resolveVotes_currentVotes a out now hl,
          resolveVotes_votedUsers a out now hl]
      exact ⟨by decide, by decide⟩

theorem recordVote_len (a : AgentState) (id c : String) :
    (recordVote a id c).state.votedUsers.length
      = a.state.votedUsers.length + 1 := by
  simp [recordVote]

theorem recordVote_tallyInv (a : AgentState) (id c : String)
    (hmem : id ∉ a.state.votedUsers) (h : tallyVoterInv a.state) :
    tallyVoterInv (recordVote a id c).state := by
  unfold tallyVoterInv
  constructor
  · show ((bumpVote a.state.currentVotes c).map Prod.snd).sum
        = (a.state.votedUsers ++ [id]).length
    rw [bumpVote_sum, h.1, List.length_append]
    rfl
  · show (a.state.votedUsers ++ [id]).Nodup
    simp [List.nodup_append, h.2, hmem]

theorem step_tallyInv (a : AgentState) (e : Event)
    (h : tallyVoterInv a.state) : tallyVoterInv (step a e).state := by
  cases e with
  | connect => exact h
  | close =>
      show tallyVoterInv (onClose a).state
      unfold onClose
      split
      · exact h
      · exact h
  | alarmFired out now =>
      show tallyVoterInv (alarmStep a out now).state
      unfold alarmStep
      split
      · exact resolveVotes_tallyInv _ _ _ h
      · exact h
  | message id m out now =>
      cases m with
      | other => exact h
      | startGame =>
          show tallyVoterInv
            (if a.state.phase = Phase.LOBBY ∧ a.isLocked = false then
              (startRound a none out now).1
            else a).state
          split
          · exact startRound_tallyInv _ _ _ _
          · exact h
      | vote c =>
          show tallyVoterInv
            (if a.state.phase = Phase.VOTING ∧ id ∉ a.state.votedUsers then
              if (recordVote a id c).state.votedUsers.length
                    ≥ a.state.connectedUsers
                  ∧ (recordVote a id c).isLocked = false then
                (resolveVotes (recordVote a id c) out now).1
              else recordVote a id c
            else a).state
          split
          case isTrue hacc =>
            have hrec := recordVote_tallyInv a id c hacc.2 h
            split
            · exact resolveVotes_tallyInv _ _ _ hrec
            · exact hrec
          case isFalse => exact h

theorem runAux_tallyInv (evs : List Event) :
    ∀ a : AgentState, tallyVoterInv a.state
      → tallyVoterInv (evs.foldl step a).state := by
  induction evs with
  | nil => intro a h; exact h
  | cons e evs ih => intro a h; exact ih (step a e) (step_tallyInv a e h)

theorem startRound_keysInv (a : AgentState) (p : Option String)
    (out : AIOutcome) (now : Nat) :
    keysInv ((startRound a p out now).1).state := by
  unfold keysInv
  rw [startRound_currentVotes]
  rfl

theorem resolveVotes_keysInv (a : AgentState) (out : AIOutcome) (now : Nat)
    (h : keysInv a.state) : keysInv ((resolveVotes a out now).1).state := by
  cases hl : a.isLocked with
  | true => rw [resolveVotes_of_locked a out now hl]; exact h
  | false =>
      unfold keysInv
      rw [resolveVotes_currentVotes a out now hl]
      rfl

theorem recordVote_keysInv (a : AgentState) (id c : String)
    (hc : c = "1" ∨ c = "2" ∨ c = "3") (h : keysInv a.state) :
    keysInv (recordVote a id c).state := by
  unfold keysInv
  show (bumpVote a.state.currentVotes c).map Prod.fst = ["1", "2", "3"]
  have hmem : c ∈ a.state.currentVotes.map Prod.fst := by
    rw [h]
    rcases hc with rfl | rfl | rfl <;> decide
  rw [bumpVote_keys _ _ hmem, h]

theorem step_keysInv (a : AgentState) (e : Event)
    (hv : eventValid e = true) (h : keysInv a.state) :
    keysInv (step a e).state := by
  cases e with
  | connect => exact h
  | close =>
      show keysInv (onClose a).state
      unfold onClose
      split
      · exact h
      · exact h
  | alarmFired out now =>
      show keysInv (alarmStep a out now).state
      unfold alarmStep
      split
      · exact resolveVotes_keysInv _ _ _ h
      · exact h
  | message id m out now =>
      cases m with
      | other => exact h
      | startGame =>
          show keysInv
            (if a.state.phase = Phase.LOBBY ∧ a.isLocked = false then
              (startRound a none out now).1
            else a).state
          split
          · exact startRound_keysInv _ _ _ _
          · exact h
      | vote c =>
          have hc : c = "1" ∨ c = "2" ∨ c = "3" := by
            have : (c == "1" || c == "2" || c == "3") = true := hv
            simp only [Bool.or_eq_true, beq_iff_eq] at this
            tauto
          show keysInv
            (if a.state.phase = Phase.VOTING ∧ id ∉ a.state.votedUsers then
              if (recordVote a id c).state.votedUsers.length
                    ≥ a.state.connectedUsers
                  ∧ (recordVote a id c).isLocked = false then
                (resolveVotes (recordVote a id c) out now).1
              else recordVote a id c
            else a).state
          split
          case isTrue hacc =>
            have hrec := recordVote_keysInv a id c hc h
            split
            · exact resolveVotes_keysInv _ _ _ hrec
            · exact hrec
          case isFalse => exact h

theorem runAux_keysInv (evs : List Event) :
    ∀ a : AgentState, (∀ e ∈ evs, eventValid e = true) → keysInv a.state
      → keysInv (evs.foldl step a).state := by
  induction evs with
  | nil => intro a _ h; exact h
  | cons e evs ih =>
      intro a hv h
      exact ih (step a e) (fun e' he' => hv e' (List.mem_cons_of_mem e he'))
        (step_keysInv a e (hv e (List.mem_cons_self e evs)) h)

theorem foldl_winnerStep_cases (votes : List (String × Nat)) :
    ∀ acc : String × Int,
      votes.foldl winnerStep acc = acc
        ∨ ∃ p, p ∈ votes ∧ votes.foldl winnerStep acc = (p.1, (p.2 : Int)) := by
  induction votes with
  | nil => intro acc; left; rfl
  | cons v vs ih =>
      intro acc
      rw [List.foldl_cons]
      by_cases hv : (v.2 : Int) > acc.2
      · have hs : winnerStep acc v = (v.1, (v.2 : Int)) := by
          unfold winnerStep; rw [if_pos hv]
        rcases ih (winnerStep acc v) with h | ⟨p, hp, heq⟩
        · right
          exact ⟨v, List.mem_cons_self v vs, by rw [h, hs]⟩
        · right
          exact ⟨p, List.mem_cons_of_mem v hp, heq⟩
      · have hs : winnerStep acc v = acc := by
          unfold winnerStep; rw [if_neg hv]
        rcases ih (winnerStep acc v) with h | ⟨p, hp, heq⟩
        · left; rw [h, hs]
        · right
          exact ⟨p, List.mem_cons_of_mem v hp, heq⟩

theorem foldl_winnerStep_ge (votes : List (String × Nat)) :
    ∀ acc : String × Int,
      acc.2 ≤ (votes.foldl winnerStep acc).2
        ∧ ∀ p ∈ votes, (p.2 : Int) ≤ (votes.foldl winnerStep acc).2 := by
  induction votes with
  | nil =>
      intro acc
      exact ⟨le_refl _, by intro p hp; cases hp⟩
  | cons v vs ih =>
      intro acc
      rw [List.foldl_cons]
      obtain ⟨h1, h2⟩ := ih (winnerStep acc v)
      have hacc : acc.2 ≤ (winnerStep acc v).2 := by
        unfold winnerStep; split <;> omega
      have hv : (v.2 : Int) ≤ (winnerStep acc v).2 := by
        unfold winnerStep; split <;> omega
      refine ⟨le_trans hacc h1, ?_⟩
      intro p hp
      rcases List.mem_cons.mp hp with rfl | hp'
      · exact le_trans hv h1
      · exact h2 p hp'

theorem le_foldr_max (l : List Nat) (x : Nat) (hx : x ∈ l) :
    x ≤ l.foldr max 0 := by
  induction l with
  | nil => cases hx
  | cons a l ih =>
      show x ≤ max a (l.foldr max 0)
      rcases List.mem_cons.mp hx with rfl | hx'
      · exact le_max_left _ _
      · exact le_trans (ih hx') (le_max_right _ _)

theorem maxTally_ge (votes : List (String × Nat)) (q : String × Nat)
    (hq : q ∈ votes) : q.2 ≤ maxTally votes :=
  le_foldr_max _ _ (List.mem_map_of_mem Prod.snd hq)

theorem tiedCandidates_mem (votes : List (String × Nat)) (c : String)
    (hc : c ∈ tiedCandidates votes) :
    ∃ p, p ∈ votes ∧ p.1 = c ∧ p.2 = maxTally votes := by
  unfold tiedCandidates at hc
  rcases List.mem_map.mp hc with ⟨p, hpf, hpe⟩
  rcases List.mem_filter.mp hpf with ⟨hpv, hpm⟩
  refine ⟨p, hpv, hpe, ?_⟩
  exact of_decide_eq_true hpm

/-! ## Claim theorems -/

/-- C1: for every voting round, the winner selection of `resolveVotes`
picks an option whose tally equals the maximum of all tallies, and on a
tie the selected option is a member of the tied set. First conjunct:
the server.ts first-maximum loop (`resolveWinnerPair`) returns an entry of
the tally whose count bounds every count. Second conjunct: the
story-agent.ts variant picks `candidates[floor(random * candidates.length)]`;
for every index the selected candidate is an entry of the tally whose
count equals the maximum. -/
theorem resolveVotes_selects_max_tally :
    (∀ votes : List (String × Nat), votes ≠ [] →
      ∃ p, p ∈ votes ∧ resolveWinnerPair votes = (p.1, (p.2 : Int)) ∧
        ∀ q ∈ votes, q.2 ≤ p.2)
    ∧ (∀ (votes : List (String × Nat)) (i : Nat)
        (hi : i < (tiedCandidates votes).length),
        ∃ p, p ∈ votes ∧ p.1 = (tiedCandidates votes).get ⟨i, hi⟩ ∧
          p.2 = maxTally votes ∧ ∀ q ∈ votes, q.2 ≤ maxTally votes) := by
  constructor
  · intro votes hne
    have hcases := foldl_winnerStep_cases votes ("1", -1)
    have hge := foldl_winnerStep_ge votes ("1", -1)
    rcases hcases with heq | ⟨p, hp, heq⟩
    · exfalso
      obtain ⟨v, vs, rfl⟩ := List.exists_cons_of_ne_nil hne
      have hle := hge.2 v (List.mem_cons_self v vs)
      rw [heq] at hle
      simp at hle
      omega
    · refine ⟨p, hp, heq, ?_⟩
      intro q hq
      have hle := hge.2 q hq
      rw [heq] at hle
      simp at hle
      exact_mod_cast hle
  · intro votes i hi
    have hmem : (tiedCandidates votes).get ⟨i, hi⟩ ∈ tiedCandidates votes :=
      List.get_mem _ i hi
    obtain ⟨p, hpv, hpe, hpm⟩ := tiedCandidates_mem votes _ hmem
    exact ⟨p, hpv, hpe, hpm, fun q hq => maxTally_ge votes q hq⟩

/-- Witness for C1 at the concrete tally `votesW = [("1",2),("2",2),("3",1)]`
(a tie between options 1 and 2). -/
theorem resolveVotes_selects_max_tally_witness :
    (∃ p, p ∈ votesW ∧ resolveWinnerPair votesW = (p.1, (p.2 : Int)) ∧
      ∀ q ∈ votesW, q.2 ≤ p.2)
    ∧ (∃ p, p ∈ votesW ∧ p.1 = (tiedCandidates votesW).get ⟨0, by decide⟩ ∧
      p.2 = maxTally votesW ∧ ∀ q ∈ votesW, q.2 ≤ maxTally votesW) :=
  ⟨resolveVotes_selects_max_tally.1 votesW (by decide),
   resolveVotes_selects_max_tally.2 votesW 0 (by decide)⟩

/-- C2: for every sequence of connect, disconnect, vote and round-advance
events, the tally counts sum to the number of recorded voters, and no
participant id appears twice in `votedUsers`. -/
theorem voteTally_sum_eq_votedUsers (evs : List Event) :
    ((run evs).state.currentVotes.map Prod.snd).sum
        = (run evs).state.votedUsers.length
      ∧ (run evs).state.votedUsers.Nodup :=
  runAux_tallyInv evs initialAgent ⟨by decide, by decide⟩

/-- C3 counterexample: in the reachable state `zeroUserVotingRoom`
(phase VOTING, `connectedUsers = 0` after the lone player disconnected
mid-vote), an accepted vote from "a" triggers early resolution — the round
advances — even though `connectedUsers > 0` fails, contradicting the
claimed `connectedParticipants > 0` requirement. -/
theorem vote_zero_connected_triggers :
    zeroUserVotingRoom.state.phase = Phase.VOTING
      ∧ zeroUserVotingRoom.state.connectedUsers = 0
      ∧ ("a" ∉ zeroUserVotingRoom.state.votedUsers)
      ∧ (onMessage zeroUserVotingRoom "a" (ClientMsg.vote "1")
          (AIOutcome.ok "t") 5).state.roundNumber
        = zeroUserVotingRoom.state.roundNumber + 1 := by
  decide

/-- C3 (amended): a Vote accepted during phase VOTING triggers early
resolution (observed as the round advancing) if and only if, after
recording the vote, `votedUsers.length >= connectedUsers` and the
round-advance lock is not held; server.ts has no `connectedUsers > 0`
requirement. -/
theorem vote_early_resolution_iff (a : AgentState) (id c : String)
    (out : AIOutcome) (now : Nat)
    (hphase : a.state.phase = Phase.VOTING)
    (hnew : id ∉ a.state.votedUsers) :
    ((onMessage a id (ClientMsg.vote c) out now).state.roundNumber
        = a.state.roundNumber + 1)
      ↔ (a.state.votedUsers.length + 1 ≥ a.state.connectedUsers
          ∧ a.isLocked = false) := by
  show ((if a.state.phase = Phase.VOTING ∧ id ∉ a.state.votedUsers then
          if (recordVote a id c).state.votedUsers.length
                ≥ a.state.connectedUsers
              ∧ (recordVote a id c).isLocked = false then
            (resolveVotes (recordVote a id c) out now).1
          else recordVote a id c
        else a).state.roundNumber = a.state.roundNumber + 1)
      ↔ _
  rw [if_pos ⟨hphase, hnew⟩]
  have hlock : (recordVote a id c).isLocked = a.isLocked := rfl
  have hround : (recordVote a id c).state.roundNumber
      = a.state.roundNumber := rfl
  split
  case isTrue hc =>
    have h1 : a.state.votedUsers.length + 1 ≥ a.state.connectedUsers := by
      have := hc.1
      rw [recordVote_len] at this
      exact this
    have h2 : a.isLocked = false := by rw [← hlock]; exact hc.2
    rw [resolveVotes_roundNumber _ out now hc.2, hround]
    exact iff_of_true rfl ⟨h1, h2⟩
  case isFalse hc =>
    rw [hround]
    refine iff_of_false (by omega) ?_
    rintro ⟨h1, h2⟩
    refine hc ⟨?_, ?_⟩
    · rw [recordVote_len]; exact h1
    · rw [hlock]; exact h2

/-- Witness for C3 (amended) in the reachable two-player voting room. -/
theorem vote_early_resolution_iff_witness :
    twoUserVotingRoom.state.phase = Phase.VOTING
      ∧ ("b" ∉ twoUserVotingRoom.state.votedUsers)
      ∧ (((onMessage twoUserVotingRoom "b" (ClientMsg.vote "1")
            AIOutcome.fail 3).state.roundNumber
          = twoUserVotingRoom.state.roundNumber + 1)
        ↔ (twoUserVotingRoom.state.votedUsers.length + 1
              ≥ twoUserVotingRoom.state.connectedUsers
            ∧ twoUserVotingRoom.isLocked = false)) :=
  ⟨by decide, by decide,
   vote_early_resolution_iff twoUserVotingRoom "b" "1" AIOutcome.fail 3
     (by decide) (by decide)⟩

/-- C4 (code bug in the story-agent.ts variant): the server.ts coordinator
does recover from a generator failure — first conjunct: for every state,
prompt and clock value, the failing-generator path of `startRound` leaves
phase VOTING, the tally reset to all-zero, the voters cleared, a deadline
strictly in the future, and the canned fallback narrator turn appended
(no error state). Second conjunct: evaluated at the concrete failing
input, the story-agent.ts variant's failing-generator path instead leaves
the phase at NARRATING, appends no narrator turn (the last entry is the
player's selection), and sets no new deadline — the room can never leave
NARRATING again. -/
theorem generator_failure_fallback_vs_dnd :
    (∀ (a : AgentState) (p : Option String) (now : Nat),
      ((startRound a p AIOutcome.fail now).1).state.phase = Phase.VOTING
        ∧ ((startRound a p AIOutcome.fail now).1).state.currentVotes = resetVotes
        ∧ ((startRound a p AIOutcome.fail now).1).state.votedUsers = []
        ∧ ((startRound a p AIOutcome.fail now).1).state.votingDeadline
            = some (now + 5000)
        ∧ now < now + 5000
        ∧ ((startRound a p AIOutcome.fail now).1).state.messages.getLast?
            = some fallbackTurn)
    ∧ ((dndStartRoundOnAIFailure dndFailInput (some "Fight")).state.phase
          = DndPhase.NARRATING
        ∧ (dndStartRoundOnAIFailure dndFailInput (some "Fight")).state.phase
            ≠ DndPhase.VOTING
        ∧ (dndStartRoundOnAIFailure dndFailInput (some "Fight")).state.votingDeadline
            = dndFailInput.state.votingDeadline
        ∧ (dndStartRoundOnAIFailure dndFailInput (some "Fight")).state.messages.getLast?
            = some ⟨Role.user, "Selection: Fight"⟩
        ∧ (dndStartRoundOnAIFailure dndFailInput (some "Fight")).isLocked = false) := by
  constructor
  · intro a p now
    refine ⟨rfl, rfl, rfl, rfl, by omega, ?_⟩
    show (a.state.messages ++ [fallbackTurn]).getLast? = some fallbackTurn
    exact List.getLast?_concat _
  · exact ⟨rfl, by decide, rfl, by decide, rfl⟩

/-- C5: a deadline firing (`alarm`) when the phase is not VOTING leaves
the entire room state — persisted fields and the lock — unchanged. -/
theorem alarm_nonvoting_noop (a : AgentState) (out : AIOutcome) (now : Nat)
    (h : a.state.phase ≠ Phase.VOTING) : alarmStep a out now = a := by
  have hc : ¬(a.state.phase = Phase.VOTING ∧ a.isLocked = false) := by
    rintro ⟨h1, _⟩
    exact h h1
  unfold alarmStep
  rw [if_neg hc]

/-- Witness for C5: the alarm fired in the initial LOBBY room. -/
theorem alarm_nonvoting_noop_witness :
    initialAgent.state.phase ≠ Phase.VOTING
      ∧ alarmStep initialAgent AIOutcome.fail 0 = initialAgent :=
  ⟨by decide, alarm_nonvoting_noop initialAgent AIOutcome.fail 0 (by decide)⟩

/-- C6: redelivering the same Vote message from the same participant in
the same round changes nothing: provided the first delivery does not
advance the round (which would start a new round), the second delivery is
the identity, so the two-delivery result equals the one-delivery result. -/
theorem vote_redelivery_idempotent (a : AgentState) (id c : String)
    (out out2 : AIOutcome) (now now2 : Nat)
    (h : ¬((a.state.phase = Phase.VOTING ∧ id ∉ a.state.votedUsers)
          ∧ a.state.votedUsers.length + 1 ≥ a.state.connectedUsers
          ∧ a.isLocked = false)) :
    onMessage (onMessage a id (ClientMsg.vote c) out now) id
        (ClientMsg.vote c) out2 now2
      = onMessage a id (ClientMsg.vote c) out now := by
  by_cases hacc : a.state.phase = Phase.VOTING ∧ id ∉ a.state.votedUsers
  · have htrig : ¬((recordVote a id c).state.votedUsers.length
          ≥ a.state.connectedUsers
        ∧ (recordVote a id c).isLocked = false) := by
      rintro ⟨h1, h2⟩
      rw [recordVote_len] at h1
      exact h ⟨hacc, h1, h2⟩
    have hfirst : onMessage a id (ClientMsg.vote c) out now
        = recordVote a id c := by
      show (if a.state.phase = Phase.VOTING ∧ id ∉ a.state.votedUsers then
            if (recordVote a id c).state.votedUsers.length
                  ≥ a.state.connectedUsers
                ∧ (recordVote a id c).isLocked = false then
              (resolveVotes (recordVote a id c) out now).1
            else recordVote a id c
          else a) = recordVote a id c
      rw [if_pos hacc, if_neg htrig]
    rw [hfirst]
    have hsecond : ¬((recordVote a id c).state.phase = Phase.VOTING
        ∧ id ∉ (recordVote a id c).state.votedUsers) := by
      rintro ⟨_, hmem⟩
      apply hmem
      show id ∈ a.state.votedUsers ++ [id]
      simp
    show (if (recordVote a id c).state.phase = Phase.VOTING
            ∧ id ∉ (recordVote a id c).state.votedUsers then
          if (recordVote (recordVote a id c) id c).state.votedUsers.length
                ≥ (recordVote a id c).state.connectedUsers
              ∧ (recordVote (recordVote a id c) id c).isLocked = false then
            (resolveVotes (recordVote (recordVote a id c) id c) out2 now2).1
          else recordVote (recordVote a id c) id c
        else recordVote a id c) = recordVote a id c
    rw [if_neg hsecond]
  · have hfirst : onMessage a id (ClientMsg.vote c) out now = a := by
      show (if a.state.phase = Phase.VOTING ∧ id ∉ a.state.votedUsers then
            if (recordVote a id c).state.votedUsers.length
                  ≥ a.state.connectedUsers
                ∧ (recordVote a id c).isLocked = false then
              (resolveVotes (recordVote a id c) out now).1
            else recordVote a id c
          else a) = a
      rw [if_neg hacc]
    rw [hfirst]
    show (if a.state.phase = Phase.VOTING ∧ id ∉ a.state.votedUsers then
          if (recordVote a id c).state.votedUsers.length
                ≥ a.state.connectedUsers
              ∧ (recordVote a id c).isLocked = false then
            (resolveVotes (recordVote a id c) out2 now2).1
          else recordVote a id c
        else a) = a
    rw [if_neg hacc]

/-- Witness for C6: redelivery of a first vote in the reachable two-player
room (turnout 1 of 2, so the first vote does not advance the round). -/
theorem vote_redelivery_idempotent_witness :
    (¬((twoUserVotingRoom.state.phase = Phase.VOTING
          ∧ "a" ∉ twoUserVotingRoom.state.votedUsers)
        ∧ twoUserVotingRoom.state.votedUsers.length + 1
            ≥ twoUserVotingRoom.state.connectedUsers
        ∧ twoUserVotingRoom.isLocked = false))
      ∧ onMessage (onMessage twoUserVotingRoom "a" (ClientMsg.vote "2")
            AIOutcome.fail 1) "a" (ClientMsg.vote "2") AIOutcome.fail 2
        = onMessage twoUserVotingRoom "a" (ClientMsg.vote "2")
            AIOutcome.fail 1 :=
  ⟨by decide,
   vote_redelivery_idempotent twoUserVotingRoom "a" "2" AIOutcome.fail
     AIOutcome.fail 1 2 (by decide)⟩

/-- C7 counterexample: in the reachable two-player voting room, a VOTE
message carrying the arbitrary choice string "4" is accepted and adds the
key "4" to `currentVotes`, so the key set is no longer the fixed option
set. -/
theorem vote_arbitrary_choice_breaks_keys :
    (onMessage twoUserVotingRoom "a" (ClientMsg.vote "4")
        AIOutcome.fail 0).state.currentVotes.map Prod.fst
        = ["1", "2", "3", "4"]
      ∧ ¬((onMessage twoUserVotingRoom "a" (ClientMsg.vote "4")
            AIOutcome.fail 0).state.currentVotes.map Prod.fst
          = ["1", "2", "3"]) := by
  decide

/-- C7 (amended): in every state reachable by events whose Vote messages
all carry a choice in the documented option set, the key list of
`currentVotes` is exactly `["1", "2", "3"]`. -/
theorem voteTally_keys_fixed_of_valid (evs : List Event)
    (hv : ∀ e ∈ evs, eventValid e = true) :
    (run evs).state.currentVotes.map Prod.fst = ["1", "2", "3"] :=
  runAux_keysInv evs initialAgent hv (by decide)

/-- Witness for C7 (amended): a connect, a game start and one valid vote. -/
theorem voteTally_keys_fixed_of_valid_witness :
    (∀ e ∈ [Event.connect,
            Event.message "a" ClientMsg.startGame (AIOutcome.ok "s") 0,
            Event.message "a" (ClientMsg.vote "2") AIOutcome.fail 1],
        eventValid e = true)
      ∧ (run [Event.connect,
              Event.message "a" ClientMsg.startGame (AIOutcome.ok "s") 0,
              Event.message "a" (ClientMsg.vote "2")
                AIOutcome.fail 1]).state.currentVotes.map Prod.fst
          = ["1", "2", "3"] :=
  ⟨by decide,
   voteTally_keys_fixed_of_valid
     [Event.connect,
      Event.message "a" ClientMsg.startGame (AIOutcome.ok "s") 0,
      Event.message "a" (ClientMsg.vote "2") AIOutcome.fail 1]
     (by decide)⟩

/-- C8: every invocation of the round advance releases the lock on every
exit path — generator success, generator failure, and the path where the
fallback's alarm call throws as well (the `finally` clause). -/
theorem startRound_releases_lock (a : AgentState) (p : Option String)
    (out : AIOutcome) (now : Nat) :
    ((startRound a p out now).1).isLocked = false := by
  cases out <;> rfl

/-- C9: `roundNumber` never decreases — every event handler leaves it
unchanged or increases it by one — and every round advance (`startRound`)
increments it by exactly one. -/
theorem roundNumber_monotonic :
    (∀ (a : AgentState) (e : Event),
      (step a e).state.roundNumber = a.state.roundNumber
        ∨ (step a e).state.roundNumber = a.state.roundNumber + 1)
    ∧ (∀ (a : AgentState) (p : Option String) (out : AIOutcome) (now : Nat),
      ((startRound a p out now).1).state.roundNumber
        = a.state.roundNumber + 1) := by
  constructor
  · intro a e
    cases e with
    | connect => left; rfl
    | close =>
        show (onClose a).state.roundNumber = a.state.roundNumber
          ∨ (onClose a).state.roundNumber = a.state.roundNumber + 1
        unfold onClose
        split
        · left; rfl
        · left; rfl
    | alarmFired out now =>
        show (alarmStep a out now).state.roundNumber = a.state.roundNumber
          ∨ (alarmStep a out now).state.roundNumber = a.state.roundNumber + 1
        unfold alarmStep
        split
        case isTrue hc => right; exact resolveVotes_roundNumber a out now hc.2
        case isFalse => left; rfl
    | message id m out now =>
        cases m with
        | other => left; rfl
        | startGame =>
            show ((if a.state.phase = Phase.LOBBY ∧ a.isLocked = false then
                    (startRound a none out now).1
                  else a).state.roundNumber = a.state.roundNumber)
              ∨ ((if a.state.phase = Phase.LOBBY ∧ a.isLocked = false then
                    (startRound a none out now).1
                  else a).state.roundNumber = a.state.roundNumber + 1)
            split
            · right; exact startRound_roundNumber a none out now
            · left; rfl
        | vote c =>
            show ((if a.state.phase = Phase.VOTING ∧ id ∉ a.state.votedUsers then
                    if (recordVote a id c).state.votedUsers.length
                          ≥ a.state.connectedUsers
                        ∧ (recordVote a id c).isLocked = false then
                      (resolveVotes (recordVote a id c) out now).1
                    else recordVote a id c
                  else a).state.roundNumber = a.state.roundNumber)
              ∨ ((if a.state.phase = Phase.VOTING ∧ id ∉ a.state.votedUsers then
                    if (recordVote a id c).state.votedUsers.length
                          ≥ a.state.connectedUsers
                        ∧ (recordVote a id c).isLocked = false then
                      (resolveVotes (recordVote a id c) out now).1
                    else recordVote a id c
                  else a).state.roundNumber = a.state.roundNumber + 1)
            split
            case isTrue hacc =>
              split
              case isTrue hc =>
                right
                rw [resolveVotes_roundNumber _ out now hc.2]
                rfl
              case isFalse => left; rfl
            case isFalse => left; rfl
  · exact startRound_roundNumber

/-- C10: a participant disconnect modifies only `connectedUsers` (with the
floor at zero expressed by truncated subtraction): tallies, voters, phase,
history, deadline and round number are untouched — in particular a cast
vote is never retracted on disconnect. -/
theorem onClose_only_decrements_connected (a : AgentState) :
    onClose a
      = { a with state :=
            { a.state with
              connectedUsers := a.state.connectedUsers - 1 } } := by
  unfold onClose
  by_cases h : a.state.connectedUsers > 0
  · rw [if_pos h]
  · rw [if_neg h]
    have h0 : a.state.connectedUsers = 0 := by omega
    obtain ⟨s, lk⟩ := a
    obtain ⟨msgs, ph, cv, cu, vd, vu, rn⟩ := s
    simp only at h0
    subst h0
    rfl
